import Mathlib

/-!
Shallow embedding of the notification / connection-manager core of the
productivity-app backend (src/app/services/manager.py,
src/app/routers/tasks.py, src/app/routers/notifications.py,
src/app/routers/websocket.py), with proofs of the spec's testable
properties about it.

Python dictionaries are modelled as association lists with first-match
lookup, in-place upsert and erase; Python sets of websockets are modelled
as duplicate-free lists; timestamps are naturals; the JWT validator is an
arbitrary function parameter `V : String → Option (Option String)`
(`none` = decode error, `some none` = payload without an id field).
-/

set_option autoImplicit false

namespace ProductivityApp

/-! ### Association-list model of Python dict -/

def alookup {α β : Type} [DecidableEq α] : List (α × β) → α → Option β
  | [], _ => none
  | (k, v) :: rest, a => if k = a then some v else alookup rest a

def aupsert {α β : Type} [DecidableEq α] : List (α × β) → α → β → List (α × β)
  | [], a, v => [(a, v)]
  | (k, w) :: rest, a, v =>
      if k = a then (a, v) :: rest else (k, w) :: aupsert rest a v

def aerase {α β : Type} [DecidableEq α] : List (α × β) → α → List (α × β)
  | [], _ => []
  | (k, w) :: rest, a => if k = a then aerase rest a else (k, w) :: aerase rest a

/-! ### Connections and the registry (src/app/services/manager.py) -/

/-- A websocket connection: an identity plus the value of its
sec-websocket-protocol header (fixed for the connection's lifetime). -/
structure Conn where
  id : Nat
  protoHeader : Option String
deriving DecidableEq

abbrev UserId := String

/-- `ConnectionManager._get_token_from_headers`: first comma-separated
subprotocol, stripped; `None`/empty header is falsy and yields no token. -/
def getTokenFromHeaders (ws : Conn) : Option String :=
  match ws.protoHeader with
  | none => none
  | some s => if s = "" then none else some (((s.splitOn ",").headD s).trim)

/-- The authentication performed at the top of `ConnectionManager.connect`:
`verify_jwt_token` (parameter `V`) on the extracted token, then
`payload.get("id")` with Python falsiness on the result.  Any of: missing
token, decode failure, payload without id, falsy id — raises, which the
`except` block turns into a policy-violation close. -/
def authUser (V : String → Option (Option String)) (ws : Conn) : Option UserId :=
  match getTokenFromHeaders ws with
  | none => none
  | some t =>
    match V t with
    | none => none
    | some none => none
    | some (some uid) => if uid = "" then none else some uid

/-- Registry state: `active_connections : Dict[str, Set[WebSocket]]` and
`socket_to_user : Dict[WebSocket, str]`. -/
structure RegState where
  active : List (UserId × List Conn)
  socketToUser : List (Conn × UserId)
deriving DecidableEq

def emptyReg : RegState := { active := [], socketToUser := [] }

/-- Python `set.add`: no duplicate is introduced. -/
def saddConn (s : List Conn) (c : Conn) : List Conn :=
  if c ∈ s then s else s ++ [c]

inductive ConnectResult
  | closed1008
  | accepted
deriving DecidableEq

/-- `ConnectionManager.connect`: on auth failure close with 1008 and leave
the maps untouched; on success register the connection in both maps
(then accept, echoing the token as subprotocol). -/
def connect (V : String → Option (Option String)) (st : RegState) (ws : Conn) :
    RegState × ConnectResult :=
  match authUser V ws with
  | none => (st, ConnectResult.closed1008)
  | some uid =>
      let conns := (alookup st.active uid).getD []
      ({ active := aupsert st.active uid (saddConn conns ws),
         socketToUser := aupsert st.socketToUser ws uid },
       ConnectResult.accepted)

/-- `ConnectionManager.disconnect`: look the user up in the reverse map
(`if user_id:` is a Python truthiness test, so an empty-string user is
skipped); if the socket is in the user's set, remove it, dropping the
user's entry entirely when the set becomes empty; finally delete the
reverse-map entry. -/
def disconnect (st : RegState) (ws : Conn) : RegState :=
  match alookup st.socketToUser ws with
  | none => st
  | some uid =>
      if uid = "" then st
      else
        let conns := (alookup st.active uid).getD []
        let st1 :=
          if ws ∈ conns then
            let conns2 := conns.erase ws
            if conns2 = [] then { st with active := aerase st.active uid }
            else { st with active := aupsert st.active uid conns2 }
          else st
        { st1 with socketToUser := aerase st1.socketToUser ws }

/-- Shape of the JSON objects pushed over websockets. -/
structure PushMsg where
  type : String
  msg : Option String
  count : Nat
deriving DecidableEq

/-- The per-connection body of `ConnectionManager.send_to_user`: iterate a
snapshot of the user's set; a failed `send_json` (modelled by the `fails`
predicate) routes the connection through `disconnect` and delivery goes on
with the rest.  Returns the final state and the connections that received
the message. -/
def pushLoop (fails : Conn → Bool) : List Conn → RegState → RegState × List Conn
  | [], st => (st, [])
  | c :: rest, st =>
      if fails c then pushLoop fails rest (disconnect st c)
      else
        let r := pushLoop fails rest st
        (r.1, c :: r.2)

/-- `ConnectionManager.send_to_user`. -/
def send_to_user (fails : Conn → Bool) (st : RegState) (uid : UserId)
    (message : PushMsg) : RegState × List Conn :=
  pushLoop fails ((alookup st.active uid).getD []) st

/-! ### Notifications (src/app/models.py, src/app/routers/tasks.py,
src/app/routers/notifications.py) -/

structure Notification where
  id : String
  user_id : String
  sender_id : String
  object_type : String
  object_id : String
  message : String
  is_read : Bool
  created_at : Nat
  updated_at : Nat
deriving DecidableEq

abbrev Store := List Notification

/-- The dedup key of `notify_if_needed`: full match on
`(user_id, sender_id, object_type, object_id, message)`. -/
def matchesKey (uid sid otype oid msg : String) (n : Notification) : Bool :=
  n.user_id == uid && n.sender_id == sid && n.object_type == otype &&
    n.object_id == oid && n.message == msg

/-- Mutating the first row a SQL `first()` query returns, in place. -/
def updateFirst {α : Type} (p : α → Bool) (f : α → α) : List α → List α
  | [] => []
  | x :: rest => if p x then f x :: rest else x :: updateFirst p f rest

/-- The dedup-upsert core of `notify_if_needed` (tasks.py lines 284-306):
query the first row matching the dedup key; if none, insert a fresh row
(`is_read` defaults to false, both timestamps default to now); otherwise
bump the existing row's `updated_at` to now (the `before_update` hook sets
the same value again at commit). -/
def freshNotification (freshId : String) (now : Nat)
    (uid sid otype oid msg : String) : Notification :=
  { id := freshId, user_id := uid, sender_id := sid, object_type := otype,
    object_id := oid, message := msg, is_read := false,
    created_at := now, updated_at := now }

def notify_core (store : Store) (freshId : String) (now : Nat)
    (uid sid otype oid msg : String) : Store :=
  match store.find? (matchesKey uid sid otype oid msg) with
  | none => store ++ [freshNotification freshId now uid sid otype oid msg]
  | some _ =>
      updateFirst (matchesKey uid sid otype oid msg)
        (fun n => { n with updated_at := now }) store

/-- `notify_if_needed`: return immediately when the inviter is the
assignee, else run the dedup upsert with the assignee as recipient and the
inviter as sender. -/
def notify_if_needed (store : Store) (freshId : String) (now : Nat)
    (inviterId assigneeUserId otype oid msg : String) : Store :=
  if inviterId = assigneeUserId then store
  else notify_core store freshId now assigneeUserId inviterId otype oid msg

/-- `get_unread_notifications_count` (notifications.py lines 14-20): select
rows with matching `user_id` and `not_(is_read)` and return their number. -/
def get_unread_notifications_count (store : Store) (uid : String) : Nat :=
  (store.filter (fun n => n.user_id == uid && !n.is_read)).length

/-- `notification_respond` (notifications.py lines 47-69): find the first
row with the given id owned by the caller (404, i.e. `none`, otherwise);
set `is_read` to the supplied boolean and commit.  When the stored value
actually changes, the SQLAlchemy `before_update` hook
(`auto_update_timestamp`, models.py) refreshes `updated_at`; when the new
value equals the old one no UPDATE is emitted and the row is untouched. -/
def notification_respond (store : Store) (now : Nat) (uid nid : String)
    (b : Bool) : Option (Store × Notification) :=
  match store.find? (fun n => n.id == nid && n.user_id == uid) with
  | none => none
  | some n =>
      if n.is_read = b then some (store, n)
      else
        some (updateFirst (fun m => m.id == nid && m.user_id == uid)
                (fun m => { m with is_read := b, updated_at := now }) store,
              { n with is_read := b, updated_at := now })

/-- The tail of `assign_task_to_member` (tasks.py lines 327-335):
`notify_if_needed`, commit, recompute the unread count, and push
`type "task" / msg "assign" / count` to the assignee unconditionally. -/
def assign_flow (fails : Conn → Bool) (st : RegState) (store : Store)
    (freshId : String) (now : Nat) (inviterId assigneeUserId oid msg : String) :
    Store × RegState × List Conn :=
  let store2 := notify_if_needed store freshId now inviterId assigneeUserId "task" oid msg
  let count := get_unread_notifications_count store2 assigneeUserId
  let r := send_to_user fails st assigneeUserId
    { type := "task", msg := some "assign", count := count }
  (store2, r.1, r.2)

/-! ### The websocket endpoint loop (src/app/routers/websocket.py) -/

/-- Outcome of one `websocket.receive_json()`. -/
inductive RecvEvent
  | frame
  | disconnected
deriving DecidableEq

/-- The `while True` body of `websocket_endpoint`, one list entry per
iteration: the store snapshot the iteration sees, and what the receive at
the iteration's end does.  Each iteration first resolves the user from the
reverse map (a missing entry raises and ends the session with no push),
then pushes a freshly computed unread count, then receives.  Returns the
pushed messages in order. -/
def wsSessionPushes (st : RegState) (ws : Conn) :
    List (Store × RecvEvent) → List PushMsg
  | [] => []
  | (store, ev) :: rest =>
      match alookup st.socketToUser ws with
      | none => []
      | some uid =>
          { type := "notifications", msg := some "Hello!",
            count := get_unread_notifications_count store uid } ::
            (match ev with
             | RecvEvent.frame => wsSessionPushes st ws rest
             | RecvEvent.disconnected => [])

/-! ### Registry operation sequences -/

inductive RegOp
  | acceptOp (ws : Conn)
  | removeOp (ws : Conn)

def runOps (V : String → Option (Option String)) : RegState → List RegOp → RegState
  | st, [] => st
  | st, RegOp.acceptOp ws :: rest => runOps V (connect V st ws).1 rest
  | st, RegOp.removeOp ws :: rest => runOps V (disconnect st ws) rest

/-- Forward/reverse map consistency (spec section 8). -/
def MapsConsistent (st : RegState) : Prop :=
  ∀ u c, (∃ s, alookup st.active u = some s ∧ c ∈ s) ↔
    alookup st.socketToUser c = some u

/-- The registry invariant maintained by `connect`/`disconnect`:
map consistency, every registered socket authenticates to its registered
user (sockets carry their credential, so re-registration cannot change the
user), and connection sets are duplicate-free. -/
structure RegInv (V : String → Option (Option String)) (st : RegState) : Prop where
  consistent : MapsConsistent st
  authOk : ∀ c u, alookup st.socketToUser c = some u → authUser V c = some u
  nodupConns : ∀ u s, alookup st.active u = some s → s.Nodup

/-! ### Concrete sample inputs used by the witness theorems -/

def c0 : Conn := { id := 0, protoHeader := none }

def c1 : Conn := { id := 1, protoHeader := none }

/-- A registry with a single user holding one connection. -/
def stSample : RegState :=
  { active := [("u1", [c0])], socketToUser := [(c0, "u1")] }

/-- A registry with a single user holding two connections. -/
def stSample2 : RegState :=
  { active := [("u1", [c0, c1])], socketToUser := [(c0, "u1"), (c1, "u1")] }

def msgSample : PushMsg :=
  { type := "notifications", msg := some "Hello!", count := 0 }

/-- An unread notification row. -/
def n0 : Notification :=
  { id := "n1", user_id := "u1", sender_id := "u2", object_type := "task",
    object_id := "t1", message := "m", is_read := false,
    created_at := 0, updated_at := 0 }

/-- The same row already read. -/
def n0read : Notification :=
  { id := "n1", user_id := "u1", sender_id := "u2", object_type := "task",
    object_id := "t1", message := "m", is_read := true,
    created_at := 0, updated_at := 0 }

/-- A second row with the same dedup tuple as `n0` but another primary key —
the duplicate shape that the documented check-then-write race can leave
behind. -/
def n0dup : Notification :=
  { id := "n2", user_id := "u1", sender_id := "u2", object_type := "task",
    object_id := "t1", message := "m", is_read := false,
    created_at := 0, updated_at := 0 }

/-! ### Lemmas about the dict model -/

theorem alookup_aupsert {α β : Type} [DecidableEq α] (l : List (α × β)) (a b : α) (v : β) :
    alookup (aupsert l a v) b = if a = b then some v else alookup l b := by
  induction l with
  | nil => simp [alookup, aupsert]
  | cons hd tl ih =>
      obtain ⟨k, w⟩ := hd
      by_cases hk : k = a
      · subst hk
        simp only [aupsert, if_pos rfl, alookup]
        by_cases hb : k = b <;> simp [hb]
      · simp only [aupsert, if_neg hk, alookup]
        by_cases hb : k = b
        · subst hb
          have : ¬ a = k := fun h => hk h.symm
          simp [this]
        · simp [hb, ih]

theorem alookup_cons {α β : Type} [DecidableEq α] (k : α) (w : β) (tl : List (α × β))
    (b : α) : alookup ((k, w) :: tl) b = if k = b then some w else alookup tl b := rfl

theorem aerase_cons {α β : Type} [DecidableEq α] (k : α) (w : β) (tl : List (α × β))
    (a : α) :
    aerase ((k, w) :: tl) a =
      if k = a then aerase tl a else (k, w) :: aerase tl a := rfl

theorem alookup_aerase {α β : Type} [DecidableEq α] (l : List (α × β)) (a b : α) :
    alookup (aerase l a) b = if a = b then none else alookup l b := by
  induction l with
  | nil => simp [alookup, aerase]
  | cons hd tl ih =>
      obtain ⟨k, w⟩ := hd
      by_cases hk : k = a
      · subst hk
        rw [aerase_cons, if_pos rfl, ih, alookup_cons]
        by_cases hb : k = b
        · simp [hb]
        · simp [hb]
      · rw [aerase_cons, if_neg hk, alookup_cons, ih, alookup_cons]
        by_cases hb : k = b
        · subst hb
          have hab : ¬ a = k := fun h => hk h.symm
          simp [hab]
        · simp [hb]

theorem mem_saddConn (s : List Conn) (w c : Conn) :
    c ∈ saddConn s w ↔ c ∈ s ∨ c = w := by
  unfold saddConn
  by_cases hw : w ∈ s
  · simp only [if_pos hw]
    constructor
    · exact fun h => Or.inl h
    · rintro (h | rfl)
      · exact h
      · exact hw
  · simp [if_neg hw]

theorem nodup_saddConn (s : List Conn) (w : Conn) (h : s.Nodup) :
    (saddConn s w).Nodup := by
  unfold saddConn
  by_cases hw : w ∈ s
  · simpa [hw]
  · rw [if_neg hw]
    exact h.append (List.nodup_singleton w)
      (fun c hc hcw => hw ((List.mem_singleton.mp hcw) ▸ hc))

/-! ### Lemmas about updateFirst -/

theorem find?_updateFirst {α : Type} (p : α → Bool) (f : α → α) (l : List α)
    (hpf : ∀ x, p (f x) = p x) :
    (updateFirst p f l).find? p = (l.find? p).map f := by
  induction l with
  | nil => simp [updateFirst]
  | cons x rest ih =>
      by_cases hx : p x
      · simp [updateFirst, hx, List.find?_cons, hpf]
      · simp only [updateFirst, if_neg hx]
        simp [List.find?_cons, hx, ih]

theorem countP_updateFirst {α : Type} (p : α → Bool) (f : α → α) (l : List α)
    (hpf : ∀ x, p (f x) = p x) :
    (updateFirst p f l).countP p = l.countP p := by
  induction l with
  | nil => simp [updateFirst]
  | cons x rest ih =>
      by_cases hx : p x
      · simp [updateFirst, hx, List.countP_cons, hpf]
      · simp only [updateFirst, if_neg hx]
        simp [List.countP_cons, hx, ih]

theorem countP_updateFirst_invariant {α : Type} (q p : α → Bool) (f : α → α)
    (l : List α) (hqf : ∀ x, q (f x) = q x) :
    (updateFirst p f l).countP q = l.countP q := by
  induction l with
  | nil => simp [updateFirst]
  | cons x rest ih =>
      by_cases hx : p x
      · simp [updateFirst, hx, List.countP_cons, hqf]
      · simp only [updateFirst, if_neg hx]
        simp [List.countP_cons, ih]

theorem countP_updateFirst_decrement {α : Type} (q p : α → Bool) (f : α → α)
    (l : List α) (r : α) (hfind : l.find? p = some r) (hqr : q r = true)
    (hqf : q (f r) = false) :
    l.countP q = (updateFirst p f l).countP q + 1 := by
  induction l with
  | nil => simp at hfind
  | cons x rest ih =>
      by_cases hx : p x
      · rw [List.find?_cons_of_pos _ hx] at hfind
        injection hfind with hxr
        subst hxr
        simp [updateFirst, hx, List.countP_cons, hqr, hqf]
      · rw [List.find?_cons_of_neg _ hx] at hfind
        simp only [updateFirst, if_neg hx]
        simp only [List.countP_cons]
        rw [ih hfind]
        omega

theorem find?_append_of_none {α : Type} (p : α → Bool) (l1 l2 : List α)
    (h : l1.find? p = none) : (l1 ++ l2).find? p = l2.find? p := by
  induction l1 with
  | nil => simp
  | cons x rest ih =>
      by_cases hx : p x
      · rw [List.find?_cons_of_pos _ hx] at h; simp at h
      · rw [List.find?_cons_of_neg _ hx] at h
        simp only [List.cons_append]
        rw [List.find?_cons_of_neg _ hx]
        exact ih h

/-! ### Lemmas about pushLoop -/

theorem pushLoop_cons (fails : Conn → Bool) (c : Conn) (rest : List Conn)
    (st : RegState) :
    pushLoop fails (c :: rest) st =
      if fails c then pushLoop fails rest (disconnect st c)
      else ((pushLoop fails rest st).1, c :: (pushLoop fails rest st).2) := rfl

theorem pushLoop_delivered (fails : Conn → Bool) (l : List Conn) :
    ∀ st : RegState, (pushLoop fails l st).2 = l.filter (fun c => !fails c) := by
  induction l with
  | nil => intro st; simp [pushLoop]
  | cons c rest ih =>
      intro st
      by_cases hc : fails c
      · simp [pushLoop_cons, hc, List.filter_cons, ih]
      · simp only [Bool.not_eq_true] at hc
        simp [pushLoop_cons, hc, List.filter_cons, ih]

theorem pushLoop_state_no_fail (fails : Conn → Bool) (l : List Conn) :
    ∀ st : RegState, (∀ c ∈ l, fails c = false) → (pushLoop fails l st).1 = st := by
  induction l with
  | nil => intro st _; rfl
  | cons c rest ih =>
      intro st h
      have hc : fails c = false := h c (List.mem_cons_self c rest)
      rw [pushLoop_cons, if_neg (by simp [hc])]
      exact ih st (fun d hd => h d (List.mem_cons_of_mem c hd))

theorem pushLoop_state_single_fail (f : Conn) (l : List Conn) :
    ∀ st : RegState, f ∈ l → l.Nodup →
      (pushLoop (fun c => c == f) l st).1 = disconnect st f := by
  induction l with
  | nil => intro st hf _; simp at hf
  | cons c rest ih =>
      intro st hf hnd
      rcases List.mem_cons.mp hf with hcf | hfr
      · subst hcf
        rw [pushLoop_cons, if_pos (by simp)]
        have hrest : ∀ d ∈ rest, (d == f) = false := by
          intro d hd
          have hdc : d ≠ f := by
            intro h; subst h
            exact (List.nodup_cons.mp hnd).1 hd
          simpa using hdc
        exact pushLoop_state_no_fail _ rest (disconnect st f) hrest
      · have hcf : ¬ ((c == f) = true) := by
          simp only [beq_iff_eq]
          intro h; subst h
          exact (List.nodup_cons.mp hnd).1 hfr
        rw [pushLoop_cons, if_neg hcf]
        exact ih st hfr (List.nodup_cons.mp hnd).2

/-! ### Unfolding lemmas for connect and disconnect -/

theorem authUser_ne_empty (V : String → Option (Option String)) (ws : Conn)
    (u : UserId) (h : authUser V ws = some u) : u ≠ "" := by
  unfold authUser at h
  split at h
  · simp at h
  · split at h
    · simp at h
    · simp at h
    · rename_i uid
      split at h
      · simp at h
      · rename_i huid
        injection h with h2
        exact h2 ▸ huid

theorem connect_of_none (V : String → Option (Option String)) (st : RegState)
    (ws : Conn) (h : authUser V ws = none) :
    connect V st ws = (st, ConnectResult.closed1008) := by
  unfold connect; rw [h]

theorem connect_of_some (V : String → Option (Option String)) (st : RegState)
    (ws : Conn) (uid : UserId) (h : authUser V ws = some uid) :
    connect V st ws =
      ({ active := aupsert st.active uid
            (saddConn ((alookup st.active uid).getD []) ws),
         socketToUser := aupsert st.socketToUser ws uid },
       ConnectResult.accepted) := by
  unfold connect; rw [h]

theorem disconnect_of_none (st : RegState) (ws : Conn)
    (h : alookup st.socketToUser ws = none) : disconnect st ws = st := by
  unfold disconnect; rw [h]

theorem disconnect_of_some (st : RegState) (ws : Conn) (uid : UserId)
    (hrev : alookup st.socketToUser ws = some uid) (hu : uid ≠ "")
    (s : List Conn) (hact : alookup st.active uid = some s) (hws : ws ∈ s) :
    disconnect st ws =
      if s.erase ws = [] then
        { active := aerase st.active uid,
          socketToUser := aerase st.socketToUser ws }
      else
        { active := aupsert st.active uid (s.erase ws),
          socketToUser := aerase st.socketToUser ws } := by
  unfold disconnect
  rw [hrev]
  simp only [if_neg hu, hact, Option.getD_some, if_pos hws]
  by_cases he : s.erase ws = []
  · rw [if_pos he, if_pos he]
  · rw [if_neg he, if_neg he]

/-! ### Preservation of the registry invariant -/

theorem regInv_empty (V : String → Option (Option String)) : RegInv V emptyReg := by
  constructor
  · intro u c
    constructor
    · rintro ⟨s, hs, _⟩; simp [emptyReg, alookup] at hs
    · intro hc; simp [emptyReg, alookup] at hc
  · intro c u hc; simp [emptyReg, alookup] at hc
  · intro u s hs; simp [emptyReg, alookup] at hs

theorem regInv_connect (V : String → Option (Option String)) (st : RegState)
    (ws : Conn) (h : RegInv V st) : RegInv V (connect V st ws).1 := by
  cases hauth : authUser V ws with
  | none => rw [connect_of_none V st ws hauth]; exact h
  | some uid =>
      rw [connect_of_some V st ws uid hauth]
      constructor
      · intro u c
        dsimp only
        constructor
        · rintro ⟨s, hs, hcs⟩
          rw [alookup_aupsert] at hs
          rw [alookup_aupsert]
          by_cases hwc : ws = c
          · subst hwc
            rw [if_pos rfl]
            by_cases hu : uid = u
            · rw [hu]
            · rw [if_neg hu] at hs
              have h1 : alookup st.socketToUser ws = some u :=
                (h.consistent u ws).mp ⟨s, hs, hcs⟩
              have h2 := h.authOk ws u h1
              rw [hauth] at h2
              injection h2 with h2
              exact absurd h2 hu
          · rw [if_neg hwc]
            by_cases hu : uid = u
            · subst hu
              rw [if_pos rfl] at hs
              injection hs with hs
              subst hs
              have hc2 : c ∈ (alookup st.active uid).getD [] := by
                rcases (mem_saddConn _ ws c).mp hcs with h1 | h1
                · exact h1
                · exact absurd h1.symm hwc
              cases halu : alookup st.active uid with
              | none => rw [halu] at hc2; simp at hc2
              | some s0 =>
                  rw [halu] at hc2
                  exact (h.consistent uid c).mp ⟨s0, halu, by simpa using hc2⟩
            · rw [if_neg hu] at hs
              exact (h.consistent u c).mp ⟨s, hs, hcs⟩
        · intro hrc
          rw [alookup_aupsert] at hrc
          by_cases hwc : ws = c
          · subst hwc
            rw [if_pos rfl] at hrc
            injection hrc with hrc
            subst hrc
            refine ⟨saddConn ((alookup st.active uid).getD []) ws, ?_, ?_⟩
            · rw [alookup_aupsert, if_pos rfl]
            · exact (mem_saddConn _ ws ws).mpr (Or.inr rfl)
          · rw [if_neg hwc] at hrc
            obtain ⟨s, hs, hcs⟩ := (h.consistent u c).mpr hrc
            by_cases hu : uid = u
            · subst hu
              refine ⟨saddConn ((alookup st.active uid).getD []) ws,
                by rw [alookup_aupsert, if_pos rfl], ?_⟩
              refine (mem_saddConn _ ws c).mpr (Or.inl ?_)
              rw [hs]
              simpa using hcs
            · exact ⟨s, by rw [alookup_aupsert, if_neg hu]; exact hs, hcs⟩
      · intro c u hcu
        dsimp only at hcu
        rw [alookup_aupsert] at hcu
        by_cases hwc : ws = c
        · subst hwc
          rw [if_pos rfl] at hcu
          injection hcu with hcu
          subst hcu
          exact hauth
        · rw [if_neg hwc] at hcu
          exact h.authOk c u hcu
      · intro u s hs
        dsimp only at hs
        rw [alookup_aupsert] at hs
        by_cases hu : uid = u
        · rw [if_pos hu] at hs
          injection hs with hs
          subst hs
          apply nodup_saddConn
          cases halu : alookup st.active uid with
          | none => simp
          | some s0 => simpa using h.nodupConns uid s0 halu
        · rw [if_neg hu] at hs
          exact h.nodupConns u s hs

theorem erase_eq_nil_elim (s : List Conn) (ws : Conn) (hws : ws ∈ s)
    (he : s.erase ws = []) : s = [ws] := by
  have hlen : (s.erase ws).length = s.length - 1 := List.length_erase_of_mem hws
  rw [he] at hlen
  simp only [List.length_nil] at hlen
  have hpos : 0 < s.length := List.length_pos.mpr (List.ne_nil_of_mem hws)
  have h1 : s.length = 1 := by omega
  obtain ⟨a, ha⟩ := List.length_eq_one.mp h1
  subst ha
  rcases List.mem_singleton.mp hws with rfl
  rfl

theorem regInv_disconnect (V : String → Option (Option String)) (st : RegState)
    (ws : Conn) (h : RegInv V st) : RegInv V (disconnect st ws) := by
  cases hrev : alookup st.socketToUser ws with
  | none => rw [disconnect_of_none st ws hrev]; exact h
  | some uid =>
      have hu : uid ≠ "" := authUser_ne_empty V ws uid (h.authOk ws uid hrev)
      obtain ⟨s, hact, hws⟩ := (h.consistent uid ws).mpr hrev
      have hnd : s.Nodup := h.nodupConns uid s hact
      rw [disconnect_of_some st ws uid hrev hu s hact hws]
      by_cases he : s.erase ws = []
      · rw [if_pos he]
        have hs1 : s = [ws] := erase_eq_nil_elim s ws hws he
        constructor
        · intro u c
          dsimp only
          constructor
          · rintro ⟨s2, hs2, hcs⟩
            rw [alookup_aerase] at hs2
            rw [alookup_aerase]
            by_cases hu2 : uid = u
            · rw [if_pos hu2] at hs2; simp at hs2
            · rw [if_neg hu2] at hs2
              have hc : alookup st.socketToUser c = some u :=
                (h.consistent u c).mp ⟨s2, hs2, hcs⟩
              by_cases hwc : ws = c
              · subst hwc
                rw [hrev] at hc
                injection hc with hc
                exact absurd hc hu2
              · rw [if_neg hwc]
                exact hc
          · intro hrc
            rw [alookup_aerase] at hrc
            by_cases hwc : ws = c
            · rw [if_pos hwc] at hrc; simp at hrc
            · rw [if_neg hwc] at hrc
              obtain ⟨s2, hs2, hcs⟩ := (h.consistent u c).mpr hrc
              by_cases hu2 : uid = u
              · exfalso
                subst hu2
                rw [hact] at hs2
                injection hs2 with hs2
                subst hs2
                rw [hs1] at hcs
                exact hwc (List.mem_singleton.mp hcs).symm
              · exact ⟨s2, by rw [alookup_aerase, if_neg hu2]; exact hs2, hcs⟩
        · intro c u hcu
          dsimp only at hcu
          rw [alookup_aerase] at hcu
          by_cases hwc : ws = c
          · rw [if_pos hwc] at hcu; simp at hcu
          · rw [if_neg hwc] at hcu
            exact h.authOk c u hcu
        · intro u s2 hs2
          dsimp only at hs2
          rw [alookup_aerase] at hs2
          by_cases hu2 : uid = u
          · rw [if_pos hu2] at hs2; simp at hs2
          · rw [if_neg hu2] at hs2
            exact h.nodupConns u s2 hs2
      · rw [if_neg he]
        constructor
        · intro u c
          dsimp only
          constructor
          · rintro ⟨s2, hs2, hcs⟩
            rw [alookup_aupsert] at hs2
            rw [alookup_aerase]
            by_cases hu2 : uid = u
            · rw [if_pos hu2] at hs2
              injection hs2 with hs2
              subst hs2
              obtain ⟨hne, hcs2⟩ := (List.Nodup.mem_erase_iff hnd).mp hcs
              have hc : alookup st.socketToUser c = some u :=
                (h.consistent u c).mp ⟨s, hu2 ▸ hact, hcs2⟩
              rw [if_neg (fun hwc => hne hwc.symm)]
              exact hc
            · rw [if_neg hu2] at hs2
              have hc : alookup st.socketToUser c = some u :=
                (h.consistent u c).mp ⟨s2, hs2, hcs⟩
              by_cases hwc : ws = c
              · subst hwc
                rw [hrev] at hc
                injection hc with hc
                exact absurd hc hu2
              · rw [if_neg hwc]
                exact hc
          · intro hrc
            rw [alookup_aerase] at hrc
            by_cases hwc : ws = c
            · rw [if_pos hwc] at hrc; simp at hrc
            · rw [if_neg hwc] at hrc
              obtain ⟨s2, hs2, hcs⟩ := (h.consistent u c).mpr hrc
              by_cases hu2 : uid = u
              · subst hu2
                rw [hact] at hs2
                injection hs2 with hs2
                subst hs2
                refine ⟨s.erase ws, by rw [alookup_aupsert, if_pos rfl], ?_⟩
                exact (List.Nodup.mem_erase_iff hnd).mpr
                  ⟨fun hc => hwc hc.symm, hcs⟩
              · exact ⟨s2, by rw [alookup_aupsert, if_neg hu2]; exact hs2, hcs⟩
        · intro c u hcu
          dsimp only at hcu
          rw [alookup_aerase] at hcu
          by_cases hwc : ws = c
          · rw [if_pos hwc] at hcu; simp at hcu
          · rw [if_neg hwc] at hcu
            exact h.authOk c u hcu
        · intro u s2 hs2
          dsimp only at hs2
          rw [alookup_aupsert] at hs2
          by_cases hu2 : uid = u
          · rw [if_pos hu2] at hs2
            injection hs2 with hs2
            subst hs2
            exact hnd.erase ws
          · rw [if_neg hu2] at hs2
            exact h.nodupConns u s2 hs2

theorem regInv_runOps (V : String → Option (Option String)) (ops : List RegOp) :
    ∀ st : RegState, RegInv V st → RegInv V (runOps V st ops) := by
  induction ops with
  | nil => intro st h; exact h
  | cons op rest ih =>
      intro st h
      cases op with
      | acceptOp ws => exact ih _ (regInv_connect V st ws h)
      | removeOp ws => exact ih _ (regInv_disconnect V st ws h)

/-! ### Unfolding lemmas for the notification operations -/

theorem notify_if_needed_self (store : Store) (freshId : String) (now : Nat)
    (uid otype oid msg : String) :
    notify_if_needed store freshId now uid uid otype oid msg = store := by
  unfold notify_if_needed; rw [if_pos rfl]

theorem notify_if_needed_of_ne (store : Store) (freshId : String) (now : Nat)
    (sid uid otype oid msg : String) (hne : sid ≠ uid) :
    notify_if_needed store freshId now sid uid otype oid msg =
      notify_core store freshId now uid sid otype oid msg := by
  unfold notify_if_needed; rw [if_neg hne]

theorem notify_core_of_none (store : Store) (freshId : String) (now : Nat)
    (uid sid otype oid msg : String)
    (h : store.find? (matchesKey uid sid otype oid msg) = none) :
    notify_core store freshId now uid sid otype oid msg =
      store ++ [freshNotification freshId now uid sid otype oid msg] := by
  unfold notify_core; rw [h]

theorem notify_core_of_some (store : Store) (freshId : String) (now : Nat)
    (uid sid otype oid msg : String) (e : Notification)
    (h : store.find? (matchesKey uid sid otype oid msg) = some e) :
    notify_core store freshId now uid sid otype oid msg =
      updateFirst (matchesKey uid sid otype oid msg)
        (fun n => { n with updated_at := now }) store := by
  unfold notify_core; rw [h]

theorem matchesKey_fresh (freshId : String) (now : Nat)
    (uid sid otype oid msg : String) :
    matchesKey uid sid otype oid msg
      (freshNotification freshId now uid sid otype oid msg) = true := by
  simp [matchesKey, freshNotification]

theorem matchesKey_bump (uid sid otype oid msg : String) (now : Nat)
    (n : Notification) :
    matchesKey uid sid otype oid msg { n with updated_at := now } =
      matchesKey uid sid otype oid msg n := rfl

theorem notification_respond_of_found (store : Store) (now : Nat)
    (uid nid : String) (b : Bool) (n : Notification)
    (h : store.find? (fun m => m.id == nid && m.user_id == uid) = some n) :
    notification_respond store now uid nid b =
      (if n.is_read = b then some (store, n)
       else
         some (updateFirst (fun m => m.id == nid && m.user_id == uid)
                 (fun m => { m with is_read := b, updated_at := now }) store,
               { n with is_read := b, updated_at := now })) := by
  have e : notification_respond store now uid nid b =
      (match store.find? (fun m => m.id == nid && m.user_id == uid) with
       | none => none
       | some n =>
           if n.is_read = b then some (store, n)
           else
             some (updateFirst (fun m => m.id == nid && m.user_id == uid)
                     (fun m => { m with is_read := b, updated_at := now }) store,
                   { n with is_read := b, updated_at := now })) := rfl
  rw [e, h]

theorem wsSessionPushes_cons (st : RegState) (ws : Conn) (store : Store)
    (ev : RecvEvent) (rest : List (Store × RecvEvent)) :
    wsSessionPushes st ws ((store, ev) :: rest) =
      (match alookup st.socketToUser ws with
       | none => []
       | some uid =>
           { type := "notifications", msg := some "Hello!",
             count := get_unread_notifications_count store uid } ::
             (match ev with
              | RecvEvent.frame => wsSessionPushes st ws rest
              | RecvEvent.disconnected => [])) := rfl

theorem wsSessionPushes_cons_none (st : RegState) (ws : Conn) (store : Store)
    (ev : RecvEvent) (rest : List (Store × RecvEvent))
    (h : alookup st.socketToUser ws = none) :
    wsSessionPushes st ws ((store, ev) :: rest) = [] := by
  rw [wsSessionPushes_cons, h]

theorem wsSessionPushes_cons_some (st : RegState) (ws : Conn) (store : Store)
    (ev : RecvEvent) (rest : List (Store × RecvEvent)) (uid : UserId)
    (h : alookup st.socketToUser ws = some uid) :
    wsSessionPushes st ws ((store, ev) :: rest) =
      { type := "notifications", msg := some "Hello!",
        count := get_unread_notifications_count store uid } ::
        (match ev with
         | RecvEvent.frame => wsSessionPushes st ws rest
         | RecvEvent.disconnected => []) := by
  rw [wsSessionPushes_cons, h]

/-- The notify operation preserves the data-model dedup invariant: if at
most one row matches a given tuple before a notify call, at most one does
after it — so the invariant holds in every store sequentially reachable by
notify calls from a store satisfying it (in particular from the empty
store). -/
theorem notify_if_needed_preserves_dedup (store : Store) (freshId : String)
    (now : Nat) (inviterId assigneeUserId otype oid msg : String)
    (uid2 sid2 otype2 oid2 msg2 : String)
    (h : store.countP (matchesKey uid2 sid2 otype2 oid2 msg2) ≤ 1) :
    (notify_if_needed store freshId now inviterId assigneeUserId otype oid
        msg).countP (matchesKey uid2 sid2 otype2 oid2 msg2) ≤ 1 := by
  unfold notify_if_needed
  by_cases hself : inviterId = assigneeUserId
  · rw [if_pos hself]; exact h
  · rw [if_neg hself]
    cases h0 : store.find? (matchesKey assigneeUserId inviterId otype oid msg) with
    | none =>
        rw [notify_core_of_none store freshId now assigneeUserId inviterId
          otype oid msg h0]
        rw [List.countP_append]
        by_cases hm : matchesKey uid2 sid2 otype2 oid2 msg2
            (freshNotification freshId now assigneeUserId inviterId otype oid msg) = true
        · have hkeys : (((assigneeUserId = uid2 ∧ inviterId = sid2) ∧
              otype = otype2) ∧ oid = oid2) ∧ msg = msg2 := by
            simpa [matchesKey, freshNotification] using hm
          obtain ⟨⟨⟨⟨e1, e2⟩, e3⟩, e4⟩, e5⟩ := hkeys
          subst e1; subst e2; subst e3; subst e4; subst e5
          have hz : store.countP
              (matchesKey assigneeUserId inviterId otype oid msg) = 0 := by
            rw [List.countP_eq_zero]
            intro a ha
            have := List.find?_eq_none.mp h0 a ha
            simpa using this
          rw [hz]
          simp [List.countP_cons, matchesKey_fresh]
        · have hz2 : List.countP (matchesKey uid2 sid2 otype2 oid2 msg2)
              [freshNotification freshId now assigneeUserId inviterId otype oid
                msg] = 0 := by
            simp only [List.countP_cons, List.countP_nil]
            simp [hm]
          rw [hz2]
          omega
    | some e =>
        rw [notify_core_of_some store freshId now assigneeUserId inviterId
          otype oid msg e h0]
        rw [countP_updateFirst_invariant (matchesKey uid2 sid2 otype2 oid2 msg2)
          (matchesKey assigneeUserId inviterId otype oid msg)
          (fun n => { n with updated_at := now }) store
          (fun n => matchesKey_bump uid2 sid2 otype2 oid2 msg2 now n)]
        exact h

/-- With primary-key-unique ids, the respond query finds exactly the row
with the given id and owner. -/
theorem find?_id_user (store : Store) (r : Notification) (u nid : String)
    (hmem : r ∈ store) (hid : r.id = nid) (huser : r.user_id = u)
    (hnodup : (store.map Notification.id).Nodup) :
    store.find? (fun n => n.id == nid && n.user_id == u) = some r := by
  induction store with
  | nil => simp at hmem
  | cons x rest ih =>
      rcases List.mem_cons.mp hmem with rfl | hr
      · exact List.find?_cons_of_pos _ (by simp [hid, huser])
      · have hxid : ¬ (x.id = nid) := by
          intro hx
          have h1 : x.id ∉ rest.map Notification.id :=
            (List.nodup_cons.mp hnodup).1
          have h2 : r.id ∈ rest.map Notification.id :=
            List.mem_map_of_mem _ hr
          exact h1 ((hx.trans hid.symm) ▸ h2)
        rw [List.find?_cons_of_neg _ (by simp [hxid])]
        exact ih hr (List.nodup_cons.mp hnodup).2

/-! ### Claim theorems -/

/-- Claim C3: for every finite sequence of connect and disconnect operations
on the registry (run sequentially from the empty registry), at every point a
connection c is in the forward map's set for user u iff the reverse map sends
c to u.  Proved for arbitrary sequences, with or without valid credentials
(a failed connect leaves the registry untouched), and for every credential
validator V; a connection's credential — hence its user — is part of the
connection value, as a websocket's headers are fixed for its lifetime. -/
theorem registry_maps_consistent_after_run
    (V : String → Option (Option String)) (ops : List RegOp) :
    MapsConsistent (runOps V emptyReg ops) :=
  (regInv_runOps V ops emptyReg (regInv_empty V)).consistent

/-- Claim C4: disconnecting a registered connection that is the last element
of its user's connection set removes the user's forward-map entry entirely:
no empty set is retained. -/
theorem remove_last_connection_drops_user_entry (st : RegState) (ws : Conn)
    (u : UserId) (hrev : alookup st.socketToUser ws = some u) (hu : u ≠ "")
    (hact : alookup st.active u = some [ws]) :
    alookup (disconnect st ws).active u = none := by
  rw [disconnect_of_some st ws u hrev hu [ws] hact (List.mem_singleton.mpr rfl)]
  rw [if_pos (by simp : ([ws] : List Conn).erase ws = [])]
  dsimp only
  rw [alookup_aerase, if_pos rfl]

/-- Witness for C4 at a concrete one-connection registry. -/
theorem remove_last_connection_drops_user_entry_witness :
    (alookup stSample.socketToUser c0 = some "u1" ∧ ("u1" : UserId) ≠ "" ∧
      alookup stSample.active "u1" = some [c0]) ∧
    alookup (disconnect stSample c0).active "u1" = none :=
  ⟨⟨by decide, by decide, by decide⟩,
    remove_last_connection_drops_user_entry stSample c0 "u1"
      (by decide) (by decide) (by decide)⟩

/-- Claim C5: pushing to a user with N connections of which exactly one
fails delivers to the other N−1 (the filter of the snapshot), removes the
failed connection from both maps, and, the embedding being a total
function, raises nothing to the caller. -/
theorem push_with_one_failing_connection (st : RegState) (u : UserId)
    (s : List Conn) (f : Conn) (m : PushMsg)
    (hact : alookup st.active u = some s) (hnd : s.Nodup) (hf : f ∈ s)
    (hrev : alookup st.socketToUser f = some u) (hu : u ≠ "") :
    (send_to_user (fun c => c == f) st u m).2 =
      s.filter (fun c => !(c == f)) ∧
    alookup (send_to_user (fun c => c == f) st u m).1.socketToUser f = none ∧
    ∀ s2, alookup (send_to_user (fun c => c == f) st u m).1.active u = some s2 →
      f ∉ s2 := by
  unfold send_to_user
  rw [hact]
  simp only [Option.getD_some]
  refine ⟨pushLoop_delivered _ s st, ?_, ?_⟩
  · rw [pushLoop_state_single_fail f s st hf hnd]
    rw [disconnect_of_some st f u hrev hu s hact hf]
    by_cases he : s.erase f = []
    · rw [if_pos he]; dsimp only; rw [alookup_aerase, if_pos rfl]
    · rw [if_neg he]; dsimp only; rw [alookup_aerase, if_pos rfl]
  · intro s2 hs2
    rw [pushLoop_state_single_fail f s st hf hnd] at hs2
    rw [disconnect_of_some st f u hrev hu s hact hf] at hs2
    by_cases he : s.erase f = []
    · rw [if_pos he] at hs2
      dsimp only at hs2
      rw [alookup_aerase, if_pos rfl] at hs2
      exact absurd hs2 (by simp)
    · rw [if_neg he] at hs2
      dsimp only at hs2
      rw [alookup_aupsert, if_pos rfl] at hs2
      injection hs2 with hs2
      subst hs2
      intro hmem
      exact ((List.Nodup.mem_erase_iff hnd).mp hmem).1 rfl

/-- Witness for C5: two connections, the second one failing. -/
theorem push_with_one_failing_connection_witness :
    (alookup stSample2.active "u1" = some [c0, c1] ∧ ([c0, c1] : List Conn).Nodup ∧
      c1 ∈ [c0, c1] ∧ alookup stSample2.socketToUser c1 = some "u1" ∧
      ("u1" : UserId) ≠ "") ∧
    ((send_to_user (fun c => c == c1) stSample2 "u1" msgSample).2 =
        [c0, c1].filter (fun c => !(c == c1)) ∧
      alookup (send_to_user (fun c => c == c1) stSample2 "u1" msgSample).1.socketToUser
        c1 = none ∧
      ∀ s2, alookup (send_to_user (fun c => c == c1) stSample2 "u1"
        msgSample).1.active "u1" = some s2 → c1 ∉ s2) :=
  ⟨⟨by decide, by decide, by decide, by decide, by decide⟩,
    push_with_one_failing_connection stSample2 "u1" [c0, c1] c1 msgSample
      (by decide) (by decide) (by decide) (by decide) (by decide)⟩

/-- Claim C1 counterexample: with the actor assigning a task to themself
(`inviter = assignee = "u1"`) while that user holds a live connection, the
assignment flow creates no notification row — but it does deliver the
`type "task" / msg "assign" / count` push to the user's connection,
because `assign_task_to_member` pushes unconditionally after
`notify_if_needed` returns.  This refutes the claim's "no push message is
delivered to any connection of that user". -/
theorem assign_self_push_cex :
    (assign_flow (fun _ => false) stSample [] "n1" 7 "u1" "u1" "t1" "m").1 = [] ∧
    (assign_flow (fun _ => false) stSample [] "n1" 7 "u1" "u1" "t1" "m").2.2 =
      [c0] := by
  decide

/-- Claim C1 as amended: when the sender identity equals the recipient
identity, no Notification row is created or updated (the store is returned
unchanged), but the caller still pushes the unread-count message, which is
delivered to every connection in the user's snapshot (all of them when no
send fails). -/
theorem assign_self_no_row_but_push (fails : Conn → Bool) (st : RegState)
    (store : Store) (freshId : String) (now : Nat) (uid oid msg : String)
    (hok : ∀ c, fails c = false) :
    (assign_flow fails st store freshId now uid uid oid msg).1 = store ∧
    (assign_flow fails st store freshId now uid uid oid msg).2.2 =
      (alookup st.active uid).getD [] := by
  unfold assign_flow
  dsimp only
  rw [notify_if_needed_self]
  refine ⟨rfl, ?_⟩
  unfold send_to_user
  rw [pushLoop_delivered]
  exact List.filter_eq_self.mpr (fun c _ => by simp [hok c])

/-- Witness for the amended C1. -/
theorem assign_self_no_row_but_push_witness :
    (∀ c : Conn, (fun _ : Conn => false) c = false) ∧
    ((assign_flow (fun _ => false) stSample [] "n1" 7 "u1" "u1" "t1" "m").1 =
        ([] : Store) ∧
      (assign_flow (fun _ => false) stSample [] "n1" 7 "u1" "u1" "t1" "m").2.2 =
        (alookup stSample.active "u1").getD []) :=
  ⟨fun _ => rfl,
    assign_self_no_row_but_push (fun _ => false) stSample [] "n1" 7 "u1" "t1" "m"
      (fun _ => rfl)⟩

/-- Claim C2 counterexample: the claim quantifies over every store state,
but on a store already holding two rows with the same dedup tuple (the
shape the documented check-then-write race can leave), two notify calls
with that tuple bump the first row and leave two matching rows, not
exactly one. -/
theorem notify_twice_duplicate_rows_cex :
    ([n0, n0dup] : Store).countP (matchesKey "u1" "u2" "task" "t1" "m") = 2 ∧
    (notify_if_needed
        (notify_if_needed [n0, n0dup] "i1" 1 "u2" "u1" "task" "t1" "m")
        "i2" 2 "u2" "u1" "task" "t1" "m").countP
      (matchesKey "u1" "u2" "task" "t1" "m") = 2 := by
  decide

/-- Claim C2 as amended: starting from a store satisfying the data-model invariant
(at most one row matches the dedup tuple — every sequentially reachable
store does), running the notify operation twice with the identical tuple
`(user_id, sender_id, object_type, object_id, message)`, sender distinct
from recipient, leaves exactly one matching row; the row after the first
call carries `updated_at = t1` and after the second `updated_at = t2 > t1`
(advanced), with `created_at` and `is_read` unchanged by the second call,
and `is_read = false` whenever the first call created the row. -/
theorem notify_twice_single_row (store : Store) (id1 id2 : String)
    (t1 t2 : Nat) (uid sid otype oid msg : String)
    (hne : sid ≠ uid) (ht : t1 < t2)
    (hded : store.countP (matchesKey uid sid otype oid msg) ≤ 1) :
    ∃ r1 r2 : Notification,
      (notify_if_needed store id1 t1 sid uid otype oid msg).find?
          (matchesKey uid sid otype oid msg) = some r1 ∧
      (notify_if_needed (notify_if_needed store id1 t1 sid uid otype oid msg)
          id2 t2 sid uid otype oid msg).find?
          (matchesKey uid sid otype oid msg) = some r2 ∧
      (notify_if_needed (notify_if_needed store id1 t1 sid uid otype oid msg)
          id2 t2 sid uid otype oid msg).countP
          (matchesKey uid sid otype oid msg) = 1 ∧
      r1.updated_at = t1 ∧ r2.updated_at = t2 ∧ r1.updated_at < r2.updated_at ∧
      r2.created_at = r1.created_at ∧ r2.is_read = r1.is_read ∧
      (store.countP (matchesKey uid sid otype oid msg) = 0 →
        r1.is_read = false) := by
  rw [notify_if_needed_of_ne store id1 t1 sid uid otype oid msg hne]
  rw [notify_if_needed_of_ne _ id2 t2 sid uid otype oid msg hne]
  cases h0 : store.find? (matchesKey uid sid otype oid msg) with
  | none =>
      rw [notify_core_of_none store id1 t1 uid sid otype oid msg h0]
      have hcount0 : store.countP (matchesKey uid sid otype oid msg) = 0 := by
        rw [List.countP_eq_zero]
        exact fun a ha => by
          have := List.find?_eq_none.mp h0 a ha
          simpa using this
      have hfind1 :
          (store ++ [freshNotification id1 t1 uid sid otype oid msg]).find?
            (matchesKey uid sid otype oid msg) =
            some (freshNotification id1 t1 uid sid otype oid msg) := by
        rw [find?_append_of_none _ store _ h0]
        exact List.find?_cons_of_pos _ (matchesKey_fresh id1 t1 uid sid otype oid msg)
      have hcount1 :
          (store ++ [freshNotification id1 t1 uid sid otype oid msg]).countP
            (matchesKey uid sid otype oid msg) = 1 := by
        rw [List.countP_append, hcount0]
        simp [matchesKey_fresh]
      rw [notify_core_of_some _ id2 t2 uid sid otype oid msg _ hfind1]
      refine ⟨freshNotification id1 t1 uid sid otype oid msg,
        { freshNotification id1 t1 uid sid otype oid msg with updated_at := t2 },
        hfind1, ?_, ?_, rfl, rfl, ht, rfl, rfl, fun _ => rfl⟩
      · rw [find?_updateFirst _ _ _ (fun n => matchesKey_bump uid sid otype oid msg t2 n),
          hfind1]
        rfl
      · rw [countP_updateFirst _ _ _ (fun n => matchesKey_bump uid sid otype oid msg t2 n)]
        exact hcount1
  | some e =>
      have hkme : matchesKey uid sid otype oid msg e = true := List.find?_some h0
      have hmem : e ∈ store := List.mem_of_find?_eq_some h0
      have hpos : 0 < store.countP (matchesKey uid sid otype oid msg) :=
        List.countP_pos.mpr ⟨e, hmem, hkme⟩
      have hcnt : store.countP (matchesKey uid sid otype oid msg) = 1 := by omega
      rw [notify_core_of_some store id1 t1 uid sid otype oid msg e h0]
      have hfind1 :
          (updateFirst (matchesKey uid sid otype oid msg)
              (fun n => { n with updated_at := t1 }) store).find?
            (matchesKey uid sid otype oid msg) = some { e with updated_at := t1 } := by
        rw [find?_updateFirst _ _ _ (fun n => matchesKey_bump uid sid otype oid msg t1 n),
          h0]
        rfl
      rw [notify_core_of_some _ id2 t2 uid sid otype oid msg _ hfind1]
      refine ⟨{ e with updated_at := t1 },
        { e with updated_at := t2 }, hfind1, ?_, ?_, rfl, rfl, ht, rfl, rfl,
        fun h => absurd h (by omega)⟩
      · rw [find?_updateFirst _ _ _ (fun n => matchesKey_bump uid sid otype oid msg t2 n),
          hfind1]
        rfl
      · rw [countP_updateFirst _ _ _ (fun n => matchesKey_bump uid sid otype oid msg t2 n)]
        rw [countP_updateFirst _ _ _ (fun n => matchesKey_bump uid sid otype oid msg t1 n)]
        exact hcnt

/-- Witness for C2 on the empty store. -/
theorem notify_twice_single_row_witness :
    (("u2" : String) ≠ "u1" ∧ (0 : Nat) < 1 ∧
      ([] : Store).countP (matchesKey "u1" "u2" "task" "t1" "m") ≤ 1) ∧
    (∃ r1 r2 : Notification,
      (notify_if_needed [] "i1" 0 "u2" "u1" "task" "t1" "m").find?
          (matchesKey "u1" "u2" "task" "t1" "m") = some r1 ∧
      (notify_if_needed (notify_if_needed [] "i1" 0 "u2" "u1" "task" "t1" "m")
          "i2" 1 "u2" "u1" "task" "t1" "m").find?
          (matchesKey "u1" "u2" "task" "t1" "m") = some r2 ∧
      (notify_if_needed (notify_if_needed [] "i1" 0 "u2" "u1" "task" "t1" "m")
          "i2" 1 "u2" "u1" "task" "t1" "m").countP
          (matchesKey "u1" "u2" "task" "t1" "m") = 1 ∧
      r1.updated_at = 0 ∧ r2.updated_at = 1 ∧ r1.updated_at < r2.updated_at ∧
      r2.created_at = r1.created_at ∧ r2.is_read = r1.is_read ∧
      (([] : Store).countP (matchesKey "u1" "u2" "task" "t1" "m") = 0 →
        r1.is_read = false)) :=
  ⟨⟨by decide, by decide, by decide⟩,
    notify_twice_single_row [] "i1" "i2" 0 1 "u1" "u2" "task" "t1" "m"
      (by decide) (by decide) (by decide)⟩

/-- Claim C6: a connection attempt whose credential fails authentication
(missing header, decode error, payload without an id, falsy id) makes
`connect` close the socket with policy-violation status 1008 and leave the
registry unchanged, so the connection is in neither map; the endpoint's
subsequent session loop, finding no reverse-map entry for the socket,
raises before computing any count, so it pushes nothing (and no code on
this path touches the notification store). -/
theorem connect_invalid_credential_rejected
    (V : String → Option (Option String)) (st : RegState) (ws : Conn)
    (script : List (Store × RecvEvent))
    (hauth : authUser V ws = none)
    (hfresh : alookup st.socketToUser ws = none) :
    connect V st ws = (st, ConnectResult.closed1008) ∧
    wsSessionPushes st ws script = [] := by
  refine ⟨connect_of_none V st ws hauth, ?_⟩
  cases script with
  | nil => rfl
  | cons e rest =>
      obtain ⟨store, ev⟩ := e
      exact wsSessionPushes_cons_none st ws store ev rest hfresh

/-- Witness for C6: an empty subprotocol header against any validator. -/
theorem connect_invalid_credential_rejected_witness :
    (authUser (fun _ => none) c0 = none ∧
      alookup emptyReg.socketToUser c0 = none) ∧
    (connect (fun _ => none) emptyReg c0 = (emptyReg, ConnectResult.closed1008) ∧
      wsSessionPushes emptyReg c0 [([], RecvEvent.disconnected)] = []) :=
  ⟨⟨by decide, by decide⟩,
    connect_invalid_credential_rejected (fun _ => none) emptyReg c0
      [([], RecvEvent.disconnected)] (by decide) (by decide)⟩

/-- Claim C7: the unread counter returns exactly the number of rows whose
`user_id` equals the given user and whose `is_read` is false; being a pure
function of the store, it modifies no row. -/
theorem unread_count_exact (store : Store) (u : String) :
    get_unread_notifications_count store u =
      store.countP (fun n => decide (n.user_id = u ∧ n.is_read = false)) := by
  induction store with
  | nil => rfl
  | cons n rest ih =>
      simp only [get_unread_notifications_count, List.filter_cons,
        List.countP_cons] at *
      by_cases h1 : n.user_id = u <;> by_cases h2 : n.is_read <;>
        simp [h1, h2, ih]

/-- Claim C8: responding `is_read := true` to an unread notification owned
by the user makes the unread count for that user exactly one less than
before. -/
theorem respond_read_decrements_count (store : Store) (r : Notification)
    (u nid : String) (now : Nat)
    (hmem : r ∈ store) (hid : r.id = nid) (huser : r.user_id = u)
    (hunread : r.is_read = false)
    (hnodup : (store.map Notification.id).Nodup) :
    ∃ store2 ret, notification_respond store now u nid true = some (store2, ret) ∧
      get_unread_notifications_count store u =
        get_unread_notifications_count store2 u + 1 := by
  have hfind := find?_id_user store r u nid hmem hid huser hnodup
  rw [notification_respond_of_found store now u nid true r hfind]
  rw [if_neg (by simp [hunread])]
  refine ⟨_, _, rfl, ?_⟩
  unfold get_unread_notifications_count
  rw [← List.countP_eq_length_filter, ← List.countP_eq_length_filter]
  exact countP_updateFirst_decrement _ _ _ store r hfind
    (by simp [huser, hunread]) (by simp)

/-- Witness for C8 on a one-row store. -/
theorem respond_read_decrements_count_witness :
    (n0 ∈ [n0] ∧ n0.id = "n1" ∧ n0.user_id = "u1" ∧ n0.is_read = false ∧
      (([n0] : Store).map Notification.id).Nodup) ∧
    (∃ store2 ret,
      notification_respond [n0] 5 "u1" "n1" true = some (store2, ret) ∧
      get_unread_notifications_count [n0] "u1" =
        get_unread_notifications_count store2 "u1" + 1) :=
  ⟨⟨by decide, by decide, by decide, by decide, by decide⟩,
    respond_read_decrements_count [n0] n0 "u1" "n1" 5
      (by decide) (by decide) (by decide) (by decide) (by decide)⟩

/-- Claim C9 counterexample: responding `is_read := true` to the unread row
`n0` (whose `updated_at` is 0) returns a row with `updated_at = 5`: the
`before_update` hook refreshes `updated_at`, so the claim's "leaves ...
updated_at ... unchanged" is false. -/
theorem respond_changes_updated_at_cex :
    (notification_respond [n0] 5 "u1" "n1" true).map
      (fun p => p.2.updated_at) = some 5 ∧
    n0.updated_at = 0 := by
  decide

/-- Claim C9 as amended: the respond operation sets `is_read` to exactly the
supplied boolean — including back to false, un-reading a read notification —
and leaves id, user_id, sender_id, object_type, object_id, message and
created_at unchanged; `updated_at`, however, is refreshed to the commit time
by the auto-update timestamp hook whenever the stored value actually
changes (and the row is untouched when the supplied boolean equals the
stored one, since no UPDATE is emitted). -/
theorem respond_sets_is_read_frame (store : Store) (r : Notification)
    (u nid : String) (now : Nat) (b : Bool)
    (hmem : r ∈ store) (hid : r.id = nid) (huser : r.user_id = u)
    (hnodup : (store.map Notification.id).Nodup) :
    ∃ store2 ret, notification_respond store now u nid b = some (store2, ret) ∧
      ret.is_read = b ∧ ret.id = r.id ∧ ret.user_id = r.user_id ∧
      ret.sender_id = r.sender_id ∧ ret.object_type = r.object_type ∧
      ret.object_id = r.object_id ∧ ret.message = r.message ∧
      ret.created_at = r.created_at ∧
      (r.is_read = b → store2 = store ∧ ret = r) ∧
      (¬ r.is_read = b → ret.updated_at = now ∧
        store2 = updateFirst (fun m => m.id == nid && m.user_id == u)
          (fun m => { m with is_read := b, updated_at := now }) store) := by
  have hfind := find?_id_user store r u nid hmem hid huser hnodup
  rw [notification_respond_of_found store now u nid b r hfind]
  by_cases hb : r.is_read = b
  · rw [if_pos hb]
    exact ⟨store, r, rfl, hb, rfl, rfl, rfl, rfl, rfl, rfl, rfl,
      fun _ => ⟨rfl, rfl⟩, fun h => absurd hb h⟩
  · rw [if_neg hb]
    exact ⟨_, _, rfl, rfl, rfl, rfl, rfl, rfl, rfl, rfl, rfl,
      fun h => absurd h hb, fun _ => ⟨rfl, rfl⟩⟩

/-- Witness for the amended C9: un-reading an already-read row. -/
theorem respond_sets_is_read_frame_witness :
    (n0read ∈ [n0read] ∧ n0read.id = "n1" ∧ n0read.user_id = "u1" ∧
      (([n0read] : Store).map Notification.id).Nodup) ∧
    (∃ store2 ret,
      notification_respond [n0read] 5 "u1" "n1" false = some (store2, ret) ∧
      ret.is_read = false ∧ ret.id = n0read.id ∧ ret.user_id = n0read.user_id ∧
      ret.sender_id = n0read.sender_id ∧ ret.object_type = n0read.object_type ∧
      ret.object_id = n0read.object_id ∧ ret.message = n0read.message ∧
      ret.created_at = n0read.created_at ∧
      (n0read.is_read = false → store2 = [n0read] ∧ ret = n0read) ∧
      (¬ n0read.is_read = false → ret.updated_at = 5 ∧
        store2 = updateFirst (fun m => m.id == "n1" && m.user_id == "u1")
          (fun m => { m with is_read := false, updated_at := 5 }) [n0read])) :=
  ⟨⟨by decide, by decide, by decide, by decide⟩,
    respond_sets_is_read_frame [n0read] n0read "u1" "n1" 5 false
      (by decide) (by decide) (by decide) (by decide)⟩

/-- Claim C10: for an admitted connection of user u, the session loop
pushes the message `type "notifications" / msg "Hello!" / count N` — with N
computed fresh from that iteration's store — once at admission and once
more after every inbound frame: a session receiving k frames before the
disconnect produces exactly k+1 pushes, one per iteration. -/
theorem ws_loop_push_per_iteration (st : RegState) (ws : Conn) (u : UserId)
    (stores : List Store) (last : Store)
    (hrev : alookup st.socketToUser ws = some u) :
    wsSessionPushes st ws
        (stores.map (fun s => (s, RecvEvent.frame)) ++
          [(last, RecvEvent.disconnected)]) =
      (stores ++ [last]).map
        (fun s => { type := "notifications", msg := some "Hello!",
                    count := get_unread_notifications_count s u }) ∧
    (wsSessionPushes st ws
        (stores.map (fun s => (s, RecvEvent.frame)) ++
          [(last, RecvEvent.disconnected)])).length = stores.length + 1 := by
  have hmain : wsSessionPushes st ws
      (stores.map (fun s => (s, RecvEvent.frame)) ++
        [(last, RecvEvent.disconnected)]) =
      (stores ++ [last]).map
        (fun s => { type := "notifications", msg := some "Hello!",
                    count := get_unread_notifications_count s u }) := by
    induction stores with
    | nil =>
        simp only [List.map_nil, List.nil_append]
        rw [wsSessionPushes_cons_some st ws last RecvEvent.disconnected [] u hrev]
        rfl
    | cons s rest ih =>
        simp only [List.map_cons, List.cons_append]
        rw [wsSessionPushes_cons_some st ws s RecvEvent.frame _ u hrev]
        rw [show (match RecvEvent.frame with
              | RecvEvent.frame => wsSessionPushes st ws
                  (rest.map (fun s => (s, RecvEvent.frame)) ++
                    [(last, RecvEvent.disconnected)])
              | RecvEvent.disconnected => ([] : List PushMsg)) =
            wsSessionPushes st ws
              (rest.map (fun s => (s, RecvEvent.frame)) ++
                [(last, RecvEvent.disconnected)]) from rfl]
        rw [ih]
  refine ⟨hmain, ?_⟩
  rw [hmain]
  simp

/-- Witness for C10: one frame then a disconnect yields two pushes. -/
theorem ws_loop_push_per_iteration_witness :
    (alookup stSample.socketToUser c0 = some "u1") ∧
    (wsSessionPushes stSample c0
        ([([] : Store)].map (fun s => (s, RecvEvent.frame)) ++
          [([n0], RecvEvent.disconnected)]) =
      ([([] : Store)] ++ [[n0]]).map
        (fun s => { type := "notifications", msg := some "Hello!",
                    count := get_unread_notifications_count s "u1" }) ∧
      (wsSessionPushes stSample c0
          ([([] : Store)].map (fun s => (s, RecvEvent.frame)) ++
            [([n0], RecvEvent.disconnected)])).length = 1 + 1) :=
  ⟨by decide,
    ws_loop_push_per_iteration stSample c0 "u1" [[]] [n0] (by decide)⟩

end ProductivityApp
